import Mathlib

/-!
Verification of `starlette_admin/contrib/sqla/helpers.py`.

The module under verification translates JSON-shaped filter dictionaries
into SQLAlchemy boolean expressions, order strings into order-by clauses,
column types into admin-UI field classes, and field lists into normalized
field descriptors.  We embed the Python functions shallowly: Python dicts
become association lists (which preserve insertion order, as Python dicts
do), SQLAlchemy expression objects become an explicit expression tree, and
Python exceptions become an `Except` error channel.
-/

namespace SqlaHelpers

mutual

/-- A JSON-shaped Python value, as appears in filter dictionaries.
`null` is Python's `None`; `dict` keeps the insertion order of keys, as
Python dicts do.  Lists and dict entry sequences are their own inductive
families (`FList`, `FDict`) so that all functions below are structurally
recursive and evaluate by kernel reduction. -/
inductive FValue where
  | null
  | bool (b : Bool)
  | int (n : Int)
  | str (s : String)
  | list (vs : FList)
  | dict (entries : FDict)

/-- A sequence of `FValue`s (a Python list). -/
inductive FList where
  | nil
  | cons (v : FValue) (rest : FList)

/-- A sequence of string-keyed entries (a Python dict, in insertion
order). -/
inductive FDict where
  | nil
  | cons (key : String) (v : FValue) (rest : FDict)

end

/-- The keys of a dict, in order. -/
def FDict.keys : FDict → List String
  | .nil => []
  | .cons k _ rest => k :: rest.keys

/-- A SQLAlchemy boolean/column expression, abstracted as a constructor tree.  A mapped
attribute (`InstrumentedAttribute`) is identified by its name.  `isNull p`
is `p.is_(None)`, `isNotNull p` is `p.is_not(None)`, `eqTrueLit p` is
`p == true()` and `eqFalseLit p` is `p == false()`.  `between` carries the
`symmetric` flag of SQLAlchemy's `ColumnOperators.between`, which is set
when a third positional argument is splatted into the call.  `and_` and
`or_` are the variadic conjunction/disjunction constructors. -/
inductive SqlExpr where
  | isNull (p : String)
  | isNotNull (p : String)
  | eqTrueLit (p : String)
  | eqFalseLit (p : String)
  | eq (p : String) (v : FValue)
  | ne (p : String) (v : FValue)
  | ge (p : String) (v : FValue)
  | gt (p : String) (v : FValue)
  | le (p : String) (v : FValue)
  | lt (p : String) (v : FValue)
  | between (p : String) (lo hi : FValue) (symmetric : Bool)
  | inList (p : String) (v : FValue)
  | notInList (p : String) (v : FValue)
  | containsOp (p : String) (v : FValue)
  | startswith (p : String) (v : FValue)
  | endswith (p : String) (v : FValue)
  | not_ (e : SqlExpr)
  | and_ (es : List SqlExpr)
  | or_ (es : List SqlExpr)

/-- A Python exception escaping one of the helper functions.
`NotSupportedColumn` is the module's own exception class. -/
inductive PyErr where
  | typeError
  | valueError (msg : String)
  | assertionError (msg : String)
  | notSupportedColumn (msg : String)
  deriving Repr, DecidableEq

/-- Python truthiness of an `FValue` (`bool(v)`). -/
def FValue.truthy : FValue → Bool
  | .null => false
  | .bool b => b
  | .int n => n ≠ 0
  | .str s => s ≠ ""
  | .list .nil => false
  | .list (.cons _ _) => true
  | .dict .nil => false
  | .dict (.cons _ _ _) => true

/-- The wrap-up `if len(filters) == 1: return filters[0]` / `return and_(*filters)` —
the wrap-up shared by `expression` and `build_query`. -/
def wrapAnd (filters : List SqlExpr) : SqlExpr :=
  match filters with
  | [f] => f
  | fs => .and_ fs

/-- The body of the `for key in where:` loop of `expression`: each
recognized key appends one predicate to `filters`; unrecognized keys are
skipped.  A malformed `between`/`not_between` value (the code splats
`where[key]` into `p.between`, so it must be a sequence of two values, or
of three with the third binding `symmetric`) and a non-dict `not` value
surface as errors; the splat is modelled for list values only.  The `not`
branch inlines `expression(where[key], p)`, which is
`(exprFilters · ·).map wrapAnd`. -/
def exprFilters (entries : FDict) (p : String) :
    Except PyErr (List SqlExpr) :=
  match entries with
  | .nil => .ok []
  | .cons key v rest =>
    if key = "eq" then
      (exprFilters rest p).map (fun fs =>
        (match v with
         | .null => .isNull p
         | .bool b => if b then .eqTrueLit p else .eqFalseLit p
         | _ => .eq p v) :: fs)
    else if key = "ge" then
      (exprFilters rest p).map (.ge p v :: ·)
    else if key = "gt" then
      (exprFilters rest p).map (.gt p v :: ·)
    else if key = "between" then
      match v with
      | .list (.cons lo (.cons hi .nil)) =>
        (exprFilters rest p).map (.between p lo hi false :: ·)
      | .list (.cons lo (.cons hi (.cons s .nil))) =>
        (exprFilters rest p).map (.between p lo hi s.truthy :: ·)
      | _ => .error .typeError
    else if key = "not_between" then
      match v with
      | .list (.cons lo (.cons hi .nil)) =>
        (exprFilters rest p).map (.not_ (.between p lo hi false) :: ·)
      | .list (.cons lo (.cons hi (.cons s .nil))) =>
        (exprFilters rest p).map (.not_ (.between p lo hi s.truthy) :: ·)
      | _ => .error .typeError
    else if key = "le" then
      (exprFilters rest p).map (.le p v :: ·)
    else if key = "lt" then
      (exprFilters rest p).map (.lt p v :: ·)
    else if key = "in" then
      (exprFilters rest p).map (.inList p v :: ·)
    else if key = "not_in" then
      (exprFilters rest p).map (.notInList p v :: ·)
    else if key = "contains" then
      (exprFilters rest p).map (.containsOp p v :: ·)
    else if key = "startsWith" then
      (exprFilters rest p).map (.startswith p v :: ·)
    else if key = "endsWith" then
      (exprFilters rest p).map (.endswith p v :: ·)
    else if key = "not" then
      match v with
      | .dict d =>
        match (exprFilters d p).map wrapAnd with
        | .ok e => (exprFilters rest p).map (.not_ e :: ·)
        | .error er => .error er
      | _ => .error .typeError
    else if key = "neq" then
      (exprFilters rest p).map (fun fs =>
        (match v with
         | .null => .isNotNull p
         | .bool b => if ¬ b then .eqTrueLit p else .eqFalseLit p
         | _ => .ne p v) :: fs)
    else
      exprFilters rest p
  termination_by structural entries

/-- Source `expression(where, p)`: collect one predicate per
recognized key, then return the single predicate unwrapped or the
conjunction of all of them. -/
def expression (entries : FDict) (p : String) : Except PyErr SqlExpr :=
  (exprFilters entries p).map wrapAnd

mutual

/-- The comprehension `[build_query(v, model) for v in vs]` inside
`build_query`, with an error in any element aborting the whole call (each
element must itself be a dict).  The model object is abstracted by the list
of its mapped attribute names: `getattr(model, key, None)` is not `None`
exactly when `key` is in the list.  The recursive `build_query(v, model)`
is inlined as `(bqFilters · ·).map wrapAnd`. -/
def bqList (vs : FList) (model : List String) :
    Except PyErr (List SqlExpr) :=
  match vs with
  | .nil => .ok []
  | .cons v rest =>
    match v with
    | .dict d =>
      match (bqFilters d model).map wrapAnd with
      | .ok e => (bqList rest model).map (e :: ·)
      | .error er => .error er
    | _ => .error .typeError
  termination_by structural vs

/-- The body of the `for key in where:` loop of `build_query`: `or` and
`and` keys recurse into their list of sub-dicts; any other key that is an
attribute of the model contributes `expression(where[key], attr)`; other
keys are skipped. -/
def bqFilters (entries : FDict) (model : List String) :
    Except PyErr (List SqlExpr) :=
  match entries with
  | .nil => .ok []
  | .cons key v rest =>
    if key = "or" then
      match v with
      | .list vs =>
        match bqList vs model with
        | .ok es => (bqFilters rest model).map (.or_ es :: ·)
        | .error er => .error er
      | _ => .error .typeError
    else if key = "and" then
      match v with
      | .list vs =>
        match bqList vs model with
        | .ok es => (bqFilters rest model).map (.and_ es :: ·)
        | .error er => .error er
      | _ => .error .typeError
    else
      if model.contains key then
        match v with
        | .dict d =>
          match expression d key with
          | .ok e => (bqFilters rest model).map (e :: ·)
          | .error er => .error er
        | _ => .error .typeError
      else
        bqFilters rest model
  termination_by structural entries

end

/-- Source `build_query(where, model)`: collect the sub-filters,
then return the single sub-filter unwrapped or the conjunction of all of
them. -/
def build_query (entries : FDict) (model : List String) :
    Except PyErr SqlExpr :=
  (bqFilters entries model).map wrapAnd

/-! ### Order clauses -/

/-- An element of the list returned by `build_order_clauses`:
`asc a` is the bare attribute `a` (ascending by default) and `desc a`
is `a.desc()`. -/
inductive OrderClause where
  | asc (attr : String)
  | desc (attr : String)
  deriving Repr, DecidableEq

/-- ASCII whitespace, the character class Python's `str.strip()` and
`str.split()` treat as separators (the model restricts strings to ASCII). -/
def isPySpace (c : Char) : Bool :=
  c = ' ' ∨ c = '\t' ∨ c = '\n' ∨ c = '\r' ∨ c = '\x0b' ∨ c = '\x0c'

/-- Python `str.lower` on one character, restricted to ASCII. -/
def pyCharLower (c : Char) : Char :=
  if 'A' ≤ c ∧ c ≤ 'Z' then Char.ofNat (c.toNat + 32) else c

/-- Python `s.lower()`, restricted to ASCII strings. -/
def pyLower (s : String) : String :=
  .mk (s.toList.map pyCharLower)

/-- Python `s.strip()`: remove leading and trailing whitespace. -/
def pyStrip (s : String) : String :=
  .mk (((s.toList.dropWhile isPySpace).reverse.dropWhile isPySpace).reverse)

/-- Python `s.split(maxsplit=1)` with the default whitespace separator:
skip leading whitespace; an empty remainder gives `[]`; otherwise the first
token runs to the next whitespace, the separator run after it is consumed,
and the untouched remainder (if nonempty) is the second element. -/
def pySplit1 (s : String) : List String :=
  let cs := s.toList.dropWhile isPySpace
  match cs with
  | [] => []
  | _ =>
    let tok := cs.takeWhile (fun c => ¬ isPySpace c)
    let rest := (cs.dropWhile (fun c => ¬ isPySpace c)).dropWhile isPySpace
    if rest.isEmpty then [.mk tok] else [.mk tok, .mk rest]

/-- Source `build_order_clauses(order_list, model)`: each entry is
stripped and split at the first whitespace run into
`attr_key, order = value.strip().split(maxsplit=1)` (any other number of
parts makes the tuple unpacking raise), and entries whose key is an
attribute of the model contribute `attr.desc()` when the direction
lower-cases to `"desc"` and the bare attribute otherwise. -/
def build_order_clauses (order_list : List String) (model : List String) :
    Except PyErr (List OrderClause) :=
  match order_list with
  | [] => .ok []
  | value :: rest =>
    match pySplit1 (pyStrip value) with
    | [attr_key, order] =>
      if model.contains attr_key then
        (build_order_clauses rest model).map
          ((if pyLower order = "desc" then .desc attr_key else .asc attr_key) :: ·)
      else
        build_order_clauses rest model
    | _ => .error (.valueError "tuple unpacking expected 2 values")

/-! ### Column types and the type-to-field converter -/

/-- One class in the method-resolution order of a column type's class, as
`convert_to_field` inspects it: its `__module__`, its `__name__`, and —
when the class has an `impl` attribute (SQLAlchemy `TypeDecorator`
subclasses) — the `__name__` of the impl type.  The code takes
`col_type.impl` itself when it is callable (a class) and
`col_type.impl.__class__` otherwise (an instance); either way only that
type's `__name__` is consulted, which is what `impl` records here. -/
structure TypeInfo where
  mod : String
  name : String
  impl : Option String
  deriving Repr, DecidableEq

/-- A column's type object (`column.type`), with the attributes the
helpers read.  `isArray` models `isinstance(column.type, ARRAY)` and
`isBoolean` models `isinstance(column.type, Boolean)`; `dimensions` is
the ARRAY `dimensions` attribute; `mro` is
`inspect.getmro(type(column.type))`; `enum_class` names the enum class of
an `Enum` type; `multiple` is `getattr(column.type, "multiple", False)`;
`python_type` is `none` when reading the property raises
`NotImplementedError`, otherwise the name of the Python type it returns;
`display` is `str(column.type)` as interpolated into error messages. -/
structure ColType where
  isArray : Bool
  dimensions : Option Int
  mro : List TypeInfo
  isBoolean : Bool
  enum_class : String
  multiple : Bool
  python_type : Option String
  display : String
  deriving Repr, DecidableEq

/-- A SQLAlchemy `Column`, with the attributes the helpers read.
`foreign_keys` is the truthiness of the column's foreign-key set,
`default` and `server_default` the truthiness of those attributes. -/
structure Column where
  type : ColType
  nullable : Bool
  foreign_keys : Bool
  default : Bool
  server_default : Bool
  deriving Repr, DecidableEq

/-- The admin-UI field classes that appear as values of the `converters`
table or are produced by `convert_to_field`. -/
inductive FieldClass where
  | StringField
  | TextAreaField
  | BooleanField
  | DateField
  | DateTimeField
  | TimeField
  | EnumField
  | IntegerField
  | DecimalField
  | JSONField
  | TagsField
  | FileField
  | ImageField
  deriving Repr, DecidableEq

/-- The static `converters` lookup table, with its keys and values exactly
as in the source (keys are unique, so association-list lookup coincides
with Python dict lookup). -/
def converters : List (String × FieldClass) :=
  [("String", .StringField),
   ("CHAR", .StringField),
   ("Text", .TextAreaField),
   ("LargeBinary", .TextAreaField),
   ("Binary", .TextAreaField),
   ("Boolean", .BooleanField),
   ("dialects.mssql.base.BIT", .BooleanField),
   ("Date", .DateField),
   ("DateTime", .DateTimeField),
   ("Time", .TimeField),
   ("Enum", .EnumField),
   ("Integer", .IntegerField),
   ("Numeric", .DecimalField),
   ("JSON", .JSONField),
   ("dialects.mysql.types.YEAR", .StringField),
   ("dialects.mysql.base.YEAR", .StringField),
   ("dialects.postgresql.base.INET", .StringField),
   ("dialects.postgresql.base.MACADDR", .StringField),
   ("dialects.postgresql.base.UUID", .StringField),
   ("sqlalchemy_file.types.FileField", .FileField),
   ("sqlalchemy_file.types.ImageField", .ImageField)]

/-- The first loop of `convert_to_field`: scan the MRO for a `converters`
entry keyed by `f"{col_type.__module__}.{col_type.__name__}"`. -/
def findModuleQualified : List TypeInfo → Option FieldClass
  | [] => none
  | t :: rest =>
    match (converters.lookup (t.mod ++ "." ++ t.name) : Option FieldClass) with
    | some f => some f
    | none => findModuleQualified rest

/-- The second loop of `convert_to_field`: scan the MRO again, checking
for each class first a `converters` entry keyed by its bare `__name__`,
then — when the class has an `impl` attribute — an entry keyed by the impl
type's bare name. -/
def findByNameOrImpl : List TypeInfo → Option FieldClass
  | [] => none
  | t :: rest =>
    match (converters.lookup t.name : Option FieldClass) with
    | some f => some f
    | none =>
      match t.impl with
      | some implName =>
        match (converters.lookup implName : Option FieldClass) with
        | some f => some f
        | none => findByNameOrImpl rest
      | none => findByNameOrImpl rest

/-- Source `convert_to_field(column)`: an `ARRAY` type with
`dimensions` `None` or `1` gives `TagsField`; any other `ARRAY` raises;
otherwise the MRO is scanned by module-qualified name, then by bare name
and impl name, and a column matching nothing raises `NotSupportedColumn`. -/
def convert_to_field (column : Column) : Except PyErr FieldClass :=
  if column.type.isArray ∧
      (column.type.dimensions = none ∨ column.type.dimensions = some 1) then
    .ok .TagsField
  else if column.type.isArray then
    .error (.notSupportedColumn "Column ARRAY with dimensions != 1 is not supported")
  else
    match findModuleQualified column.type.mro with
    | some f => .ok f
    | none =>
      match findByNameOrImpl column.type.mro with
      | some f => .ok f
      | none =>
        .error (.notSupportedColumn
          ("Column " ++ column.type.display ++ " is not supported"))

/-! ### Field normalalization -/

/-- A normalized admin field descriptor, as `normalize_fields` emits them.
`plain cls key multiple required` is `cls(attr.key)` with its `multiple`
and `required` attributes as set by `normalize_fields`;
`enumField key enumClass required` is
`EnumField.from_enum(attr.key, column.type.enum_class)` with `required`
set; `hasOne`/`hasMany` carry the relationship key and identity. -/
inductive AdminField where
  | hasOne (key : String) (identity : String)
  | hasMany (key : String) (identity : String)
  | enumField (key : String) (enumClass : String) (required : Bool)
  | plain (cls : FieldClass) (key : String) (multiple : Bool) (required : Bool)
  deriving Repr, DecidableEq

/-- Modelled from the spec: `slugify_class_name` lives in
`starlette_admin.helpers`, which is not part of the sources under
verification; the spec only requires a slugified form of the related
entity's class name, modelled here as lower-casing. -/
def slugify_class_name (name : String) : String :=
  pyLower name

/-- A mapper attribute (`mapper.attrs` entry): a relationship property
(with its key, the related entity's class name, `direction.name` and
`uselist`), a column property (with its key and columns), or some other
property kind (e.g. a composite), which `normalize_fields` silently
skips. -/
inductive MapperAttr where
  | relationship (key : String) (entityClassName : String)
      (directionName : String) (uselist : Bool)
  | column (key : String) (columns : List Column)
  | otherProp (key : String)
  deriving Repr, DecidableEq

/-- The key of a mapper attribute. -/
def MapperAttr.key : MapperAttr → String
  | .relationship k _ _ _ => k
  | .column k _ => k
  | .otherProp k => k

/-- The lookup `mapper.attrs.get(key)`: the mapper is abstracted by the list of its
attributes, looked up by key. -/
def attrsGet (mapper : List MapperAttr) (k : String) : Option MapperAttr :=
  mapper.find? (fun a => a.key = k)

/-- An element of the `fields` list given to `normalize_fields`: an
already-built `BaseField` (passed through unchanged), a string key, or an
`InstrumentedAttribute` (looked up by its `.key`; `display` is how the
attribute prints inside the `ValueError` message). -/
inductive FieldArg where
  | base (f : AdminField)
  | str (key : String)
  | attr (key : String) (display : String)
  deriving Repr, DecidableEq

/-- The lookup key of a non-`BaseField` element (`field.key` for an
`InstrumentedAttribute`, the string itself otherwise), and the text
interpolated into the `ValueError` message. -/
def FieldArg.lookupKey : FieldArg → String
  | .base _ => ""
  | .str k => k
  | .attr k _ => k

/-- How a `fields` element prints inside `f"Can't find column with key
{field}"`. -/
def FieldArg.display : FieldArg → String
  | .base _ => ""
  | .str k => k
  | .attr _ d => d

/-- Source `normalize_fields(fields, mapper)`: `BaseField`
elements pass through; other elements are looked up in `mapper.attrs` (a
missing key raises `ValueError`); relationship properties become
`HasOne`/`HasMany` by direction and `uselist`; single-column properties
with foreign keys are skipped, and otherwise become the field class chosen
by `convert_to_field` (`EnumField` via `from_enum`), with `multiple` set
for file/image fields of a `multiple` type and `required` set for
non-nullable non-boolean columns without default or server default;
a multi-column property trips the `assert len(attr.columns) == 1`. -/
def normalize_fields (fields : List FieldArg) (mapper : List MapperAttr) :
    Except PyErr (List AdminField) :=
  match fields with
  | [] => .ok []
  | .base f :: rest => (normalize_fields rest mapper).map (f :: ·)
  | field :: rest =>
    match attrsGet mapper field.lookupKey with
    | none => .error (.valueError ("Can't find column with key " ++ field.display))
    | some (.relationship k entityClassName directionName uselist) =>
      let identity := slugify_class_name entityClassName
      (normalize_fields rest mapper).map
        ((if directionName = "MANYTOONE" ∨
            (directionName = "ONETOMANY" ∧ ¬ uselist) then
          AdminField.hasOne k identity
        else
          AdminField.hasMany k identity) :: ·)
    | some (.column k columns) =>
      match columns with
      | [column] =>
        if column.foreign_keys then
          normalize_fields rest mapper
        else
          let required := ¬ column.nullable ∧ ¬ column.type.isBoolean ∧
            ¬ column.default ∧ ¬ column.server_default
          match convert_to_field column with
          | .error e => .error e
          | .ok cls =>
            let f :=
              if cls = .EnumField then
                AdminField.enumField k column.type.enum_class required
              else
                AdminField.plain cls k
                  ((cls = .FileField ∨ cls = .ImageField) ∧
                    column.type.multiple)
                  required
            (normalize_fields rest mapper).map (f :: ·)
      | _ => .error (.assertionError "Multiple-column properties are not supported")
    | some (.otherProp _) => normalize_fields rest mapper

/-! ### List normalization and python_type extraction -/

/-- An element of the list given to `normalize_list`: an
`InstrumentedAttribute` (replaced by its `.key`), a string (kept), or a
value of any other type, recorded with its `type(v).__name__`. -/
inductive ListArg where
  | attr (key : String)
  | str (s : String)
  | other (typeName : String)
  deriving Repr, DecidableEq

/-- The value `normalize_list` appends for a well-typed element. -/
def ListArg.normalized : ListArg → String
  | .attr k => k
  | .str s => s
  | .other t => t

/-- Whether an element is neither a string nor an
`InstrumentedAttribute`. -/
def ListArg.isOther : ListArg → Bool
  | .other _ => true
  | _ => false

/-- Source `normalize_list(arr)`: `None` passes through, every
`InstrumentedAttribute` is replaced by its key, every string is kept, and
any other element raises a `ValueError` naming its type. -/
def normalize_list (arr : Option (List ListArg)) :
    Except PyErr (Option (List String)) :=
  match arr with
  | none => .ok none
  | some l => (normalizeListGo l).map some
where
  /-- The `for v in arr:` loop building `_new_list`. -/
  normalizeListGo : List ListArg → Except PyErr (List String)
    | [] => .ok []
    | .attr k :: rest => (normalizeListGo rest).map (k :: ·)
    | .str s :: rest => (normalizeListGo rest).map (s :: ·)
    | .other t :: _ =>
      .error (.valueError ("Expected str or InstrumentedAttribute, got " ++ t))

/-- Source `extract_column_python_type(column)`: the column
type's `python_type`, falling back to `str` when reading the property
raises `NotImplementedError`. -/
def extract_column_python_type (column : Column) : String :=
  match column.type.python_type with
  | some t => t
  | none => "str"

/-! ### Specification-side definitions

The following definitions are written from the words of the specification
claims, to be compared with the definitions above, which are translated
from the source. -/

/-- The `between` compilation shared by the spec reading of `between` and
`not_between`: `p.between(lo, hi)` for a two-element value (three elements
bind `symmetric`), anything else being an error. -/
def betweenSpec (p : String) (v : FValue) : Except PyErr SqlExpr :=
  match v with
  | .list (.cons lo (.cons hi .nil)) => .ok (.between p lo hi false)
  | .list (.cons lo (.cons hi (.cons s .nil))) =>
    .ok (.between p lo hi s.truthy)
  | _ => .error .typeError

/-- Claim C1's per-operator dispatch table, for the non-recursive
operators, in the claim's order of presentation: `eq` with `None` yields
`p.is_(None)`, `eq` with a boolean the `true()`/`false()` literal
equality, `eq` otherwise `p == value`; `neq` dually with the opposite
literal; the orderings, `between` and its negation, memberships and string
predicates follow; a key outside the operator set contributes nothing. -/
def opSpec (p : String) (key : String) (v : FValue) :
    Option (Except PyErr SqlExpr) :=
  if key = "eq" then
    some (.ok (match v with
      | .null => .isNull p
      | .bool b => if b then .eqTrueLit p else .eqFalseLit p
      | _ => .eq p v))
  else if key = "neq" then
    some (.ok (match v with
      | .null => .isNotNull p
      | .bool b => if ¬ b then .eqTrueLit p else .eqFalseLit p
      | _ => .ne p v))
  else if key = "ge" then some (.ok (.ge p v))
  else if key = "gt" then some (.ok (.gt p v))
  else if key = "le" then some (.ok (.le p v))
  else if key = "lt" then some (.ok (.lt p v))
  else if key = "between" then some (betweenSpec p v)
  else if key = "not_between" then some ((betweenSpec p v).map .not_)
  else if key = "in" then some (.ok (.inList p v))
  else if key = "not_in" then some (.ok (.notInList p v))
  else if key = "contains" then some (.ok (.containsOp p v))
  else if key = "startsWith" then some (.ok (.startswith p v))
  else if key = "endsWith" then some (.ok (.endswith p v))
  else none

/-- Claim C1's reading of the predicate collection: each key of the fixed
operator set contributes its predicate via `opSpec`, `not` contributes the
negation of recursively compiling its sub-dictionary, and other keys are
skipped. -/
def specFilters (entries : FDict) (p : String) :
    Except PyErr (List SqlExpr) :=
  match entries with
  | .nil => .ok []
  | .cons key v rest =>
    if key = "not" then
      match v with
      | .dict d =>
        match (specFilters d p).map wrapAnd with
        | .ok e => (specFilters rest p).map (.not_ e :: ·)
        | .error er => .error er
      | _ => .error .typeError
    else
      match opSpec p key v with
      | none => specFilters rest p
      | some (.error e) => .error e
      | some (.ok f) => (specFilters rest p).map (f :: ·)
  termination_by structural entries

/-- Claim C1's reading of `expression`: the collected predicates, a single
one returned unwrapped, otherwise their conjunction in key order. -/
def expression_spec (entries : FDict) (p : String) : Except PyErr SqlExpr :=
  (specFilters entries p).map wrapAnd

mutual

/-- Claim C2's reading of the recursive list builds under an `or`/`and`
key: `build_query` applied recursively to each element of the list
value. -/
def bqSpecList (vs : FList) (model : List String) :
    Except PyErr (List SqlExpr) :=
  match vs with
  | .nil => .ok []
  | .cons v rest => do
    let e ← (match v with
      | .dict d => (bqSpecFilters d model).map wrapAnd
      | _ => .error .typeError)
    let es ← bqSpecList rest model
    pure (e :: es)
  termination_by structural vs

/-- Claim C2's reading of the sub-filter collection: `or` maps to the
disjunction of the recursive builds of its list value, `and` to their
conjunction, and any other key, when it is an attribute of the model,
contributes `expression(where[key], attr)`. -/
def bqSpecFilters (entries : FDict) (model : List String) :
    Except PyErr (List SqlExpr) :=
  match entries with
  | .nil => .ok []
  | .cons key v rest =>
    if key = "or" then do
      let es ← (match v with
        | .list vs => bqSpecList vs model
        | _ => .error PyErr.typeError)
      let fs ← bqSpecFilters rest model
      pure (.or_ es :: fs)
    else if key = "and" then do
      let es ← (match v with
        | .list vs => bqSpecList vs model
        | _ => .error PyErr.typeError)
      let fs ← bqSpecFilters rest model
      pure (.and_ es :: fs)
    else if model.contains key then do
      let e ← (match v with
        | .dict d => expression d key
        | _ => .error PyErr.typeError)
      let fs ← bqSpecFilters rest model
      pure (e :: fs)
    else
      bqSpecFilters rest model
  termination_by structural entries

end

/-- Claim C2's reading of `build_query`: the collected sub-filters, a
single one returned unwrapped, otherwise their conjunction. -/
def build_query_spec (entries : FDict) (model : List String) :
    Except PyErr SqlExpr :=
  (bqSpecFilters entries model).map wrapAnd

/-- Claim C5's reading of `convert_to_field`: (1) an `ARRAY` type with
`dimensions` `None` or `1` returns `TagsField` before any table lookup;
(2) otherwise the MRO is scanned in order for a table entry keyed by
`<module>.<name>`; (3) only if none matches, the MRO is rescanned for an
entry keyed by the bare class name and, for each class with an `impl`
attribute, by the impl type's bare name; the first match in this order
determines the field class. -/
def convert_to_field_spec (column : Column) : Except PyErr FieldClass :=
  if column.type.isArray ∧
      (column.type.dimensions = none ∨ column.type.dimensions = some 1) then
    .ok .TagsField
  else if column.type.isArray then
    .error (.notSupportedColumn "Column ARRAY with dimensions != 1 is not supported")
  else
    match column.type.mro.findSome?
        (fun t => (converters.lookup (t.mod ++ "." ++ t.name) : Option FieldClass)) with
    | some f => .ok f
    | none =>
      match column.type.mro.findSome? (fun t =>
          ((converters.lookup t.name : Option FieldClass)).orElse
            (fun _ => t.impl.bind (fun i => converters.lookup i))) with
      | some f => .ok f
      | none =>
        .error (.notSupportedColumn
          ("Column " ++ column.type.display ++ " is not supported"))

/-! ### Helper lemmas -/

set_option maxHeartbeats 1000000 in
theorem exprFilters_eq_specFilters :
    ∀ (entries : FDict) (p : String), exprFilters entries p = specFilters entries p := by
  intro entries p
  induction entries, p using exprFilters.induct <;>
    (try simp_all [exprFilters, specFilters, opSpec, betweenSpec, Except.map]) <;>
    (try (rename FValue => v
          rcases v with _ | b | n | s | (_ | ⟨lo, _ | ⟨hi, _ | ⟨s3, _ | ⟨v4, vs4⟩⟩⟩⟩) | d <;>
            simp_all [exprFilters, specFilters, opSpec, betweenSpec, Except.map]))

theorem bqList_cons_eq (v : FValue) (rest : FList) (model : List String)
    (ihr : bqList rest model = bqSpecList rest model)
    (ihd : ∀ d, v = FValue.dict d → bqFilters d model = bqSpecFilters d model) :
    bqList (.cons v rest) model = bqSpecList (.cons v rest) model := by
  rw [bqList.eq_def, bqSpecList.eq_def]
  cases v with
  | dict d =>
    have ih := ihd d rfl
    cases h : bqSpecFilters d model <;>
      simp [h, ih, ihr, Except.map, Bind.bind, Except.bind, Pure.pure, Except.pure]
  | null => simp [Bind.bind, Except.bind]
  | bool b => simp [Bind.bind, Except.bind]
  | int m => simp [Bind.bind, Except.bind]
  | str s => simp [Bind.bind, Except.bind]
  | list vs => simp [Bind.bind, Except.bind]

theorem bqFilters_cons_eq (key : String) (v : FValue) (rest : FDict) (model : List String)
    (ihr : bqFilters rest model = bqSpecFilters rest model)
    (ihv : ∀ vs, v = FValue.list vs → bqList vs model = bqSpecList vs model) :
    bqFilters (.cons key v rest) model = bqSpecFilters (.cons key v rest) model := by
  rw [bqFilters.eq_def, bqSpecFilters.eq_def]
  rcases Classical.em (key = "or") with h1 | h1
  · subst h1
    cases v with
    | list vs =>
      have ihl := ihv vs rfl
      clear ihv
      cases h : bqSpecList vs model <;>
        simp [h, ihl, ihr, Except.map, Bind.bind, Except.bind, Pure.pure, Except.pure]
    | null => simp [Bind.bind, Except.bind]
    | bool b => simp [Bind.bind, Except.bind]
    | int m => simp [Bind.bind, Except.bind]
    | str s => simp [Bind.bind, Except.bind]
    | dict d => simp [Bind.bind, Except.bind]
  · rcases Classical.em (key = "and") with h2 | h2
    · subst h2
      cases v with
      | list vs =>
        have ihl := ihv vs rfl
        clear ihv
        cases h : bqSpecList vs model <;>
          simp [h, ihl, ihr, h1, Except.map, Bind.bind, Except.bind, Pure.pure, Except.pure]
      | null => simp [h1, Bind.bind, Except.bind]
      | bool b => simp [h1, Bind.bind, Except.bind]
      | int m => simp [h1, Bind.bind, Except.bind]
      | str s => simp [h1, Bind.bind, Except.bind]
      | dict d => simp [h1, Bind.bind, Except.bind]
    · clear ihv
      cases h3 : model.contains key with
      | true =>
        have hm : key ∈ model := by simpa using h3
        cases v with
        | dict d =>
          cases h : expression d key <;>
            simp [h, ihr, h1, h2, hm, Except.map, Bind.bind, Except.bind, Pure.pure, Except.pure]
        | null => simp [h1, h2, hm, Bind.bind, Except.bind]
        | bool b => simp [h1, h2, hm, Bind.bind, Except.bind]
        | int m => simp [h1, h2, hm, Bind.bind, Except.bind]
        | str s => simp [h1, h2, hm, Bind.bind, Except.bind]
        | list vs => simp [h1, h2, hm, Bind.bind, Except.bind]
      | false =>
        have hm : ¬ key ∈ model := by simpa using h3
        simp [h1, h2, hm, ihr]

theorem bq_eq_spec_upTo (n : Nat) :
    (∀ (vs : FList) (model : List String), sizeOf vs ≤ n →
      bqList vs model = bqSpecList vs model) ∧
    (∀ (entries : FDict) (model : List String), sizeOf entries ≤ n →
      bqFilters entries model = bqSpecFilters entries model) := by
  induction n with
  | zero =>
    constructor
    · intro vs model hvs
      cases vs with
      | nil => rfl
      | cons v rest => simp at hvs
    · intro entries model hent
      cases entries with
      | nil => rfl
      | cons key v rest => simp at hent
  | succ n ihn =>
    obtain ⟨ihL, ihF⟩ := ihn
    constructor
    · intro vs model hvs
      cases vs with
      | nil => rfl
      | cons v rest =>
        refine bqList_cons_eq v rest model (ihL rest model ?_) (fun d hd => ihF d model ?_)
        · simp at hvs; omega
        · subst hd; simp at hvs; omega
    · intro entries model hent
      cases entries with
      | nil => rfl
      | cons key v rest =>
        refine bqFilters_cons_eq key v rest model (ihF rest model ?_)
          (fun vs hv => ihL vs model ?_)
        · simp at hent; omega
        · subst hv; simp at hent; omega

theorem bqFilters_eq_bqSpecFilters (entries : FDict) (model : List String) :
    bqFilters entries model = bqSpecFilters entries model :=
  (bq_eq_spec_upTo (sizeOf entries)).2 entries model le_rfl

theorem bqList_eq_bqSpecList (vs : FList) (model : List String) :
    bqList vs model = bqSpecList vs model :=
  (bq_eq_spec_upTo (sizeOf vs)).1 vs model le_rfl

/-- C1: `expression` dispatches each key of the fixed operator set to its
comparison predicate, skips unknown keys, and wraps the collected
predicates: one predicate is returned unwrapped, otherwise their
conjunction in key order. -/
theorem c1_expression_dispatch (entries : FDict) (p : String) :
    expression entries p = expression_spec entries p := by
  unfold expression expression_spec
  rw [exprFilters_eq_specFilters]

/-- C2: `build_query` is the recursive boolean-expression builder of the
claim: `or`/`and` keys map to the disjunction/conjunction of the recursive
builds of their list elements, other keys present on the model contribute
`expression(where[key], attr)`, and a single sub-filter is returned
unwrapped, otherwise the conjunction of all sub-filters. -/
theorem c2_build_query_recursive (entries : FDict) (model : List String) :
    build_query entries model = build_query_spec entries model := by
  unfold build_query build_query_spec
  rw [bqFilters_eq_bqSpecFilters]

theorem findModuleQualified_eq_findSome? (l : List TypeInfo) :
    findModuleQualified l =
      l.findSome? (fun t => (converters.lookup (t.mod ++ "." ++ t.name) : Option FieldClass)) := by
  induction l with
  | nil => rfl
  | cons t rest ih =>
    cases h : (converters.lookup (t.mod ++ "." ++ t.name) : Option FieldClass) <;>
      simp [findModuleQualified, List.findSome?_cons, h, ih]

theorem findByNameOrImpl_eq_findSome? (l : List TypeInfo) :
    findByNameOrImpl l =
      l.findSome? (fun t =>
        ((converters.lookup t.name : Option FieldClass)).orElse
          (fun _ => t.impl.bind (fun i => converters.lookup i))) := by
  induction l with
  | nil => rfl
  | cons t rest ih =>
    cases h1 : (converters.lookup t.name : Option FieldClass) with
    | some f => simp [findByNameOrImpl, List.findSome?_cons, h1, Option.orElse]
    | none =>
      cases h2 : t.impl with
      | none => simp [findByNameOrImpl, List.findSome?_cons, h1, h2, ih, Option.orElse]
      | some i =>
        cases h3 : (converters.lookup i : Option FieldClass) <;>
          simp [findByNameOrImpl, List.findSome?_cons, h1, h2, h3, ih, Option.orElse]

theorem findModuleQualified_eq_none_iff (l : List TypeInfo) :
    findModuleQualified l = none ↔
      ∀ t ∈ l, (converters.lookup (t.mod ++ "." ++ t.name) : Option FieldClass) = none := by
  rw [findModuleQualified_eq_findSome?, List.findSome?_eq_none_iff]

theorem orElse_bind_eq_none_iff (o₁ : Option FieldClass) (oi : Option String) :
    (o₁.orElse (fun _ => oi.bind (fun i => (converters.lookup i : Option FieldClass)))) = none ↔
      (o₁ = none ∧ oi.elim True (fun i => (converters.lookup i : Option FieldClass) = none)) := by
  cases o₁ <;> cases oi <;> simp [Option.orElse, Option.bind, Option.elim]

theorem findByNameOrImpl_eq_none_iff (l : List TypeInfo) :
    findByNameOrImpl l = none ↔
      ∀ t ∈ l, (converters.lookup t.name : Option FieldClass) = none ∧
        t.impl.elim True (fun i => (converters.lookup i : Option FieldClass) = none) := by
  rw [findByNameOrImpl_eq_findSome?, List.findSome?_eq_none_iff]
  exact forall₂_congr (fun t _ => orElse_bind_eq_none_iff _ _)

/-- C5: `convert_to_field` follows the fixed precedence of the static
`converters` table: ARRAY short-circuit, then module-qualified scan, then
bare-name/impl scan. -/
theorem c5_convert_to_field_precedence (column : Column) :
    convert_to_field column = convert_to_field_spec column := by
  unfold convert_to_field convert_to_field_spec
  rw [findModuleQualified_eq_findSome?, findByNameOrImpl_eq_findSome?]

/-- C3: the error behaviour of `convert_to_field`. -/
theorem c3_convert_to_field_errors (c : Column) :
    (c.type.isArray = true → c.type.dimensions ≠ none → c.type.dimensions ≠ some 1 →
      convert_to_field c =
        .error (.notSupportedColumn "Column ARRAY with dimensions != 1 is not supported")) ∧
    (c.type.isArray = false →
      (∀ t ∈ c.type.mro,
        (converters.lookup (t.mod ++ "." ++ t.name) : Option FieldClass) = none ∧
        (converters.lookup t.name : Option FieldClass) = none ∧
        t.impl.elim True (fun i => (converters.lookup i : Option FieldClass) = none)) →
      convert_to_field c =
        .error (.notSupportedColumn ("Column " ++ c.type.display ++ " is not supported"))) ∧
    (c.type.isArray = false →
      (∃ t ∈ c.type.mro,
        (converters.lookup (t.mod ++ "." ++ t.name) : Option FieldClass) ≠ none ∨
        (converters.lookup t.name : Option FieldClass) ≠ none ∨
        t.impl.elim False (fun i => (converters.lookup i : Option FieldClass) ≠ none)) →
      ∃ f, convert_to_field c = .ok f) ∧
    (c.type.isArray = true →
      (c.type.dimensions = none ∨ c.type.dimensions = some 1) →
      convert_to_field c = .ok .TagsField) := by
  refine ⟨?_, ?_, ?_, ?_⟩
  · intro harr hd1 hd2
    simp [convert_to_field, harr, hd1, hd2]
  · intro harr hno
    have h1 : findModuleQualified c.type.mro = none :=
      (findModuleQualified_eq_none_iff _).2 (fun t ht => (hno t ht).1)
    have h2 : findByNameOrImpl c.type.mro = none :=
      (findByNameOrImpl_eq_none_iff _).2 (fun t ht => ⟨(hno t ht).2.1, (hno t ht).2.2⟩)
    simp [convert_to_field, harr, h1, h2]
  · intro harr hex
    cases hm : findModuleQualified c.type.mro with
    | some f => exact ⟨f, by simp [convert_to_field, harr, hm]⟩
    | none =>
      cases hn : findByNameOrImpl c.type.mro with
      | some f => exact ⟨f, by simp [convert_to_field, harr, hm, hn]⟩
      | none =>
        exfalso
        obtain ⟨t, ht, hor⟩ := hex
        have hall1 := (findModuleQualified_eq_none_iff _).1 hm t ht
        have hall2 := (findByNameOrImpl_eq_none_iff _).1 hn t ht
        rcases hor with h | h | h
        · exact h hall1
        · exact h hall2.1
        · cases hi : t.impl with
          | none => rw [hi] at h; exact h
          | some j =>
            rw [hi] at h
            have := hall2.2
            rw [hi] at this
            exact h this
  · intro harr hd
    rcases hd with hd | hd <;> simp [convert_to_field, harr, hd]

/-- Witness for C3 at concrete columns. -/
theorem c3_convert_to_field_errors_witness :
    convert_to_field ⟨⟨true, some 2, [], false, "", false, none, "ARRAY"⟩, true, false, false, false⟩ =
      .error (.notSupportedColumn "Column ARRAY with dimensions != 1 is not supported") ∧
    convert_to_field ⟨⟨false, none, [⟨"m", "T", none⟩], false, "", false, none, "T()"⟩, true, false, false, false⟩ =
      .error (.notSupportedColumn "Column T() is not supported") ∧
    (∃ f, convert_to_field
      ⟨⟨false, none, [⟨"sqlalchemy.sql.sqltypes", "Integer", none⟩], false, "", false, none, "INTEGER"⟩,
        true, false, false, false⟩ = .ok f) ∧
    convert_to_field ⟨⟨true, none, [], false, "", false, none, "ARRAY"⟩, true, false, false, false⟩ =
      .ok .TagsField := by
  refine ⟨?_, ?_, ?_, ?_⟩
  · exact (c3_convert_to_field_errors _).1 rfl (by decide) (by decide)
  · refine (c3_convert_to_field_errors _).2.1 rfl ?_
    intro t ht
    rcases List.mem_singleton.1 ht with rfl
    exact ⟨by decide, by decide, trivial⟩
  · refine (c3_convert_to_field_errors _).2.2.1 rfl ?_
    exact ⟨⟨"sqlalchemy.sql.sqltypes", "Integer", none⟩, List.mem_singleton.2 rfl,
      Or.inr (Or.inl (by decide))⟩
  · exact (c3_convert_to_field_errors _).2.2.2 rfl (Or.inl rfl)


/-- C7: on entries that strip-split into an attribute key and a direction. -/
theorem c7_build_order_clauses (order_list model : List String)
    (h : ∀ s ∈ order_list, (pySplit1 (pyStrip s)).length = 2) :
    build_order_clauses order_list model =
      .ok (order_list.filterMap (fun s =>
        match pySplit1 (pyStrip s) with
        | [k, d] =>
          if model.contains k then
            some (if pyLower d = "desc" then OrderClause.desc k else OrderClause.asc k)
          else none
        | _ => none)) := by
  induction order_list with
  | nil => rfl
  | cons s rest ih =>
    have hs := h s (List.mem_cons_self s rest)
    have hrest := ih (fun x hx => h x (List.mem_cons_of_mem s hx))
    cases hsp : pySplit1 (pyStrip s) with
    | nil => rw [hsp] at hs; simp at hs
    | cons a t =>
      cases t with
      | nil => rw [hsp] at hs; simp at hs
      | cons b t2 =>
        cases t2 with
        | nil =>
          cases hc : model.contains a with
          | true =>
            have hm : a ∈ model := by simpa using hc
            simp [build_order_clauses, hsp, hrest, hc, hm, List.filterMap_cons, Except.map]
          | false =>
            have hm : ¬ a ∈ model := by simpa using hc
            simp [build_order_clauses, hsp, hrest, hc, hm, List.filterMap_cons, Except.map]
        | cons c t3 => rw [hsp] at hs; simp at hs

/-- Witness for C7 at a concrete order list. -/
theorem c7_build_order_clauses_witness :
    (∀ s ∈ ["name desc", " age ASC ", "missing asc"], (pySplit1 (pyStrip s)).length = 2) ∧
    build_order_clauses ["name desc", " age ASC ", "missing asc"] ["name", "age"] =
      .ok [.desc "name", .asc "age"] :=
  ⟨by decide, by rw [c7_build_order_clauses _ _ (by decide)]; rfl⟩

/-- C4 as stated is false: a filter key absent from the model is silently
skipped by `build_query` (yielding the empty conjunction), and an order
entry whose key is absent from the model is silently dropped by
`build_order_clauses`; no error is raised in either case. -/
theorem c4_counterexample :
    ("missing" ∈ (["id"] : List String) → False) ∧
    build_query (.cons "missing" (.dict (.cons "eq" (.int 1) .nil)) .nil) ["id"] =
      .ok (.and_ []) ∧
    build_order_clauses ["missing desc"] ["id"] = .ok [] :=
  ⟨by decide, rfl, rfl⟩

/-- C4 amended: a filter key other than `or`/`and` that is not an
attribute of the model contributes nothing to `build_query`, and an order
entry whose attribute key is not on the model contributes nothing to
`build_order_clauses`; both are skipped silently. -/
theorem c4_amended_silent_skip :
    (∀ (key : String) (v : FValue) (rest : FDict) (model : List String),
      key ≠ "or" → key ≠ "and" → model.contains key = false →
      build_query (.cons key v rest) model = build_query rest model) ∧
    (∀ (s k d : String) (rest model : List String),
      pySplit1 (pyStrip s) = [k, d] → model.contains k = false →
      build_order_clauses (s :: rest) model = build_order_clauses rest model) := by
  constructor
  · intro key v rest model h1 h2 h3
    have hm : ¬ key ∈ model := by simpa using h3
    have hb : bqFilters (.cons key v rest) model = bqFilters rest model := by
      rw [bqFilters.eq_def]
      simp [h1, h2, hm]
    unfold build_query
    rw [hb]
  · intro s k d rest model hsp hc
    have hm : ¬ k ∈ model := by simpa using hc
    rw [build_order_clauses.eq_def]
    simp [hsp, hm]

/-- Witness for the amended C4. -/
theorem c4_amended_silent_skip_witness :
    build_query (.cons "zzz" FValue.null .nil) ["id"] = build_query .nil ["id"] ∧
    build_order_clauses ["zzz asc"] ["id"] = build_order_clauses [] ["id"] :=
  ⟨c4_amended_silent_skip.1 "zzz" FValue.null .nil ["id"] (by decide) (by decide) (by decide),
   c4_amended_silent_skip.2 "zzz asc" "zzz" "asc" [] ["id"] (by decide) (by decide)⟩


/-- Whether a `fields` element is an already-built `BaseField`. -/
def FieldArg.isBase : FieldArg → Bool
  | .base _ => true
  | _ => false

/-- Claim C6's per-element conversion: a `BaseField` passes through
unchanged; a field resolving to a relationship property becomes `HasOne`
when the direction is `MANYTOONE`, or `ONETOMANY` with `uselist` false,
and `HasMany` otherwise, with identity the slugified class name of the
related entity; a field resolving to a single-column property is skipped
(`none`) when the column has foreign keys and otherwise becomes the field
class chosen by `convert_to_field` (`EnumField` via `from_enum` with the
column's `enum_class`), required exactly when the column is not nullable,
not Boolean, and has neither default nor server default.  A key matching
no attribute is the `ValueError`; a multi-column property is the
assertion; another property kind is skipped. -/
def nfStep (field : FieldArg) (mapper : List MapperAttr) :
    Except PyErr (Option AdminField) :=
  match field with
  | .base f => .ok (some f)
  | _ =>
    match attrsGet mapper field.lookupKey with
    | none => .error (.valueError ("Can't find column with key " ++ field.display))
    | some (.relationship k ent dir ul) =>
      .ok (some (if dir = "MANYTOONE" ∨ (dir = "ONETOMANY" ∧ ¬ ul) then
        AdminField.hasOne k (slugify_class_name ent)
      else
        AdminField.hasMany k (slugify_class_name ent)))
    | some (.column k cols) =>
      match cols with
      | [column] =>
        if column.foreign_keys then .ok none
        else
          let required := ¬ column.nullable ∧ ¬ column.type.isBoolean ∧
            ¬ column.default ∧ ¬ column.server_default
          match convert_to_field column with
          | .error e => .error e
          | .ok cls =>
            .ok (some (if cls = .EnumField then
              AdminField.enumField k column.type.enum_class required
            else
              AdminField.plain cls k
                ((cls = .FileField ∨ cls = .ImageField) ∧ column.type.multiple)
                required))
      | _ => .error (.assertionError "Multiple-column properties are not supported")
    | some (.otherProp _) => .ok none

theorem normalize_fields_cons_eq (f : FieldArg) (rest : List FieldArg)
    (m : List MapperAttr) :
    normalize_fields (f :: rest) m =
      (match nfStep f m with
       | .error e => .error e
       | .ok none => normalize_fields rest m
       | .ok (some a) => (normalize_fields rest m).map (a :: ·)) := by
  cases f with
  | base bf => rfl
  | str key =>
    cases hA : attrsGet m key with
    | none => simp [normalize_fields, nfStep, FieldArg.lookupKey, hA]
    | some attr =>
      cases attr with
      | relationship k ent dir ul =>
        simp [normalize_fields, nfStep, FieldArg.lookupKey, hA]
      | column k cols =>
        cases cols with
        | nil => simp [normalize_fields, nfStep, FieldArg.lookupKey, hA]
        | cons c t =>
          cases t with
          | cons c2 t2 => simp [normalize_fields, nfStep, FieldArg.lookupKey, hA]
          | nil =>
            cases hfk : c.foreign_keys with
            | true => simp [normalize_fields, nfStep, FieldArg.lookupKey, hA, hfk]
            | false =>
              cases hcv : convert_to_field c <;>
                simp [normalize_fields, nfStep, FieldArg.lookupKey, hA, hfk, hcv]
      | otherProp k => simp [normalize_fields, nfStep, FieldArg.lookupKey, hA]
  | attr key disp =>
    cases hA : attrsGet m key with
    | none => simp [normalize_fields, nfStep, FieldArg.lookupKey, hA]
    | some attr =>
      cases attr with
      | relationship k ent dir ul =>
        simp [normalize_fields, nfStep, FieldArg.lookupKey, hA]
      | column k cols =>
        cases cols with
        | nil => simp [normalize_fields, nfStep, FieldArg.lookupKey, hA]
        | cons c t =>
          cases t with
          | cons c2 t2 => simp [normalize_fields, nfStep, FieldArg.lookupKey, hA]
          | nil =>
            cases hfk : c.foreign_keys with
            | true => simp [normalize_fields, nfStep, FieldArg.lookupKey, hA, hfk]
            | false =>
              cases hcv : convert_to_field c <;>
                simp [normalize_fields, nfStep, FieldArg.lookupKey, hA, hfk, hcv]
      | otherProp k => simp [normalize_fields, nfStep, FieldArg.lookupKey, hA]

/-- C6: `normalize_fields` walks the field list once, in input order,
emitting per element exactly what `nfStep` prescribes. -/
theorem c6_normalize_fields_single_pass :
    (∀ m : List MapperAttr, normalize_fields [] m = .ok []) ∧
    (∀ (f : FieldArg) (rest : List FieldArg) (m : List MapperAttr),
      normalize_fields (f :: rest) m =
        (match nfStep f m with
         | .error e => .error e
         | .ok none => normalize_fields rest m
         | .ok (some a) => (normalize_fields rest m).map (a :: ·))) :=
  ⟨fun _ => rfl, normalize_fields_cons_eq⟩

theorem convert_to_field_error_shape (c : Column) (e : PyErr)
    (h : convert_to_field c = .error e) : ∃ s, e = .notSupportedColumn s := by
  unfold convert_to_field at h
  split at h
  · exact Except.noConfusion h
  · split at h
    · exact ⟨_, (Except.error.inj h).symm⟩
    · split at h
      · exact Except.noConfusion h
      · split at h
        · exact Except.noConfusion h
        · exact ⟨_, (Except.error.inj h).symm⟩

theorem nfStep_valueError_iff (f : FieldArg) (m : List MapperAttr) (msg : String) :
    nfStep f m = .error (.valueError msg) ↔
      (f.isBase = false ∧ attrsGet m f.lookupKey = none ∧
        msg = "Can't find column with key " ++ f.display) := by
  cases f with
  | base bf => simp [nfStep, FieldArg.isBase]
  | str key =>
    cases hA : attrsGet m key with
    | none =>
      simp [nfStep, FieldArg.isBase, FieldArg.lookupKey, FieldArg.display, hA, eq_comm]
    | some attr =>
      cases attr with
      | relationship k ent dir ul => simp [nfStep, FieldArg.lookupKey, hA]
      | column k cols =>
        cases cols with
        | nil => simp [nfStep, FieldArg.lookupKey, hA]
        | cons c t =>
          cases t with
          | cons c2 t2 => simp [nfStep, FieldArg.lookupKey, hA]
          | nil =>
            cases hfk : c.foreign_keys with
            | true => simp [nfStep, FieldArg.lookupKey, hA, hfk]
            | false =>
              cases hcv : convert_to_field c with
              | ok cls => simp [nfStep, FieldArg.lookupKey, hA, hfk, hcv]
              | error e =>
                obtain ⟨s, rfl⟩ := convert_to_field_error_shape c e hcv
                simp [nfStep, FieldArg.lookupKey, hA, hfk, hcv]
      | otherProp k => simp [nfStep, FieldArg.lookupKey, hA]
  | attr key disp =>
    cases hA : attrsGet m key with
    | none =>
      simp [nfStep, FieldArg.isBase, FieldArg.lookupKey, FieldArg.display, hA, eq_comm]
    | some attr =>
      cases attr with
      | relationship k ent dir ul => simp [nfStep, FieldArg.lookupKey, hA]
      | column k cols =>
        cases cols with
        | nil => simp [nfStep, FieldArg.lookupKey, hA]
        | cons c t =>
          cases t with
          | cons c2 t2 => simp [nfStep, FieldArg.lookupKey, hA]
          | nil =>
            cases hfk : c.foreign_keys with
            | true => simp [nfStep, FieldArg.lookupKey, hA, hfk]
            | false =>
              cases hcv : convert_to_field c with
              | ok cls => simp [nfStep, FieldArg.lookupKey, hA, hfk, hcv]
              | error e =>
                obtain ⟨s, rfl⟩ := convert_to_field_error_shape c e hcv
                simp [nfStep, FieldArg.lookupKey, hA, hfk, hcv]
      | otherProp k => simp [nfStep, FieldArg.lookupKey, hA]

theorem normalize_fields_append_ok (pre suf : List FieldArg) (m : List MapperAttr)
    (l : List AdminField) (h : normalize_fields pre m = .ok l) :
    normalize_fields (pre ++ suf) m = (normalize_fields suf m).map (l ++ ·) := by
  induction pre generalizing l with
  | nil =>
    have : l = [] := by
      have h' : (Except.ok [] : Except PyErr (List AdminField)) = .ok l := h
      exact (Except.ok.inj h').symm
    subst this
    cases hsuf : normalize_fields suf m <;> simp [hsuf, Except.map]
  | cons f pre ih =>
    rw [List.cons_append, normalize_fields_cons_eq]
    rw [normalize_fields_cons_eq] at h
    cases hstep : nfStep f m with
    | error e => rw [hstep] at h; exact Except.noConfusion h
    | ok o =>
      cases o with
      | none => rw [hstep] at h; exact ih l h
      | some a =>
        rw [hstep] at h
        have h' : Except.map (fun x => a :: x) (normalize_fields pre m) = .ok l := h
        show Except.map (fun x => a :: x) (normalize_fields (pre ++ suf) m) =
          Except.map (fun x => l ++ x) (normalize_fields suf m)
        cases hrec : normalize_fields pre m with
        | error e => rw [hrec] at h'; exact Except.noConfusion h'
        | ok l' =>
          rw [hrec] at h'
          have hl : a :: l' = l := Except.ok.inj h'
          subst hl
          rw [ih l' hrec]
          cases hsuf : normalize_fields suf m <;> simp [hsuf, Except.map]

/-- C8 as stated is false: when an earlier element fails to convert, the
`NotSupportedColumn` error preempts the `ValueError`, even though a later
element matches no attribute of the mapper. -/
theorem c8_counterexample :
    (attrsGet [MapperAttr.column "bad"
        [⟨⟨false, none, [], false, "", false, none, "BadType"⟩, true, false, false, false⟩]]
        "missing" = none) ∧
    normalize_fields [.str "bad", .str "missing"]
        [MapperAttr.column "bad"
          [⟨⟨false, none, [], false, "", false, none, "BadType"⟩, true, false, false, false⟩]] =
      .error (.notSupportedColumn "Column BadType is not supported") ∧
    (∀ msg, normalize_fields [.str "bad", .str "missing"]
        [MapperAttr.column "bad"
          [⟨⟨false, none, [], false, "", false, none, "BadType"⟩, true, false, false, false⟩]] ≠
      .error (.valueError msg)) := by
  refine ⟨rfl, rfl, ?_⟩
  intro msg h
  rw [show normalize_fields [.str "bad", .str "missing"]
      [MapperAttr.column "bad"
        [⟨⟨false, none, [], false, "", false, none, "BadType"⟩, true, false, false, false⟩]] =
      .error (.notSupportedColumn "Column BadType is not supported") from rfl] at h
  exact PyErr.noConfusion (Except.error.inj h)

/-- C8 amended: the `ValueError` "Can't find column with key ..." is
raised only for a non-`BaseField` element matching no attribute of the
mapper, and it is raised whenever such an element is reached with every
preceding element normalizing successfully; an earlier failing element
raises its own error instead. -/
theorem c8_amended_valueError :
    (∀ (fields : List FieldArg) (m : List MapperAttr) (msg : String),
      normalize_fields fields m = .error (.valueError msg) →
      ∃ f ∈ fields, f.isBase = false ∧ attrsGet m f.lookupKey = none ∧
        msg = "Can't find column with key " ++ f.display) ∧
    (∀ (pre : List FieldArg) (f : FieldArg) (rest : List FieldArg)
        (m : List MapperAttr) (l : List AdminField),
      normalize_fields pre m = .ok l → f.isBase = false →
      attrsGet m f.lookupKey = none →
      normalize_fields (pre ++ f :: rest) m =
        .error (.valueError ("Can't find column with key " ++ f.display))) := by
  constructor
  · intro fields
    induction fields with
    | nil => intro m msg h; exact Except.noConfusion h
    | cons f rest ih =>
      intro m msg h
      rw [normalize_fields_cons_eq] at h
      cases hstep : nfStep f m with
      | error e =>
        rw [hstep] at h
        have h' : (Except.error e : Except PyErr (List AdminField)) =
          .error (.valueError msg) := h
        have he : e = .valueError msg := Except.error.inj h'
        subst he
        obtain ⟨hb, ha, hm⟩ := (nfStep_valueError_iff f m msg).1 hstep
        exact ⟨f, List.mem_cons_self f rest, hb, ha, hm⟩
      | ok o =>
        cases o with
        | none =>
          rw [hstep] at h
          obtain ⟨g, hg, hprops⟩ := ih m msg h
          exact ⟨g, List.mem_cons_of_mem f hg, hprops⟩
        | some a =>
          rw [hstep] at h
          have h' : Except.map (fun x => a :: x) (normalize_fields rest m) =
            .error (.valueError msg) := h
          cases hrec : normalize_fields rest m with
          | error e =>
            rw [hrec] at h'
            have h'' : (Except.error e : Except PyErr (List AdminField)) =
              .error (.valueError msg) := h'
            have he : e = .valueError msg := Except.error.inj h''
            subst he
            obtain ⟨g, hg, hprops⟩ := ih m msg hrec
            exact ⟨g, List.mem_cons_of_mem f hg, hprops⟩
          | ok l' =>
            rw [hrec] at h'
            exact Except.noConfusion
              (show (Except.ok (a :: l') : Except PyErr (List AdminField)) =
                .error (.valueError msg) from h')
  · intro pre f rest m l hpre hbase hattr
    rw [normalize_fields_append_ok pre (f :: rest) m l hpre, normalize_fields_cons_eq,
      (nfStep_valueError_iff f m ("Can't find column with key " ++ f.display)).2
        ⟨hbase, hattr, rfl⟩]
    rfl

/-- Witness for the amended C8. -/
theorem c8_amended_valueError_witness :
    (∃ f ∈ [FieldArg.str "missing"], f.isBase = false ∧
      attrsGet ([] : List MapperAttr) f.lookupKey = none ∧
      "Can't find column with key missing" = "Can't find column with key " ++ f.display) ∧
    normalize_fields ([FieldArg.base (.hasOne "a" "b")] ++ FieldArg.str "missing" :: []) [] =
      .error (.valueError ("Can't find column with key " ++ (FieldArg.str "missing").display)) :=
  ⟨c8_amended_valueError.1 [FieldArg.str "missing"] [] "Can't find column with key missing" rfl,
   c8_amended_valueError.2 [FieldArg.base (.hasOne "a" "b")] (FieldArg.str "missing") [] []
     [AdminField.hasOne "a" "b"] rfl rfl rfl⟩

theorem normalizeListGo_ok (l : List ListArg) (h : ∀ v ∈ l, v.isOther = false) :
    normalize_list.normalizeListGo l = .ok (l.map ListArg.normalized) := by
  induction l with
  | nil => rfl
  | cons v rest ih =>
    cases v with
    | attr k =>
      simp [normalize_list.normalizeListGo, ListArg.normalized, Except.map,
        ih (fun x hx => h x (List.mem_cons_of_mem _ hx))]
    | str s =>
      simp [normalize_list.normalizeListGo, ListArg.normalized, Except.map,
        ih (fun x hx => h x (List.mem_cons_of_mem _ hx))]
    | other t =>
      have := h (.other t) (List.mem_cons_self _ _)
      simp [ListArg.isOther] at this

theorem normalizeListGo_error (pre : List ListArg) (t : String) (rest : List ListArg)
    (h : ∀ v ∈ pre, v.isOther = false) :
    normalize_list.normalizeListGo (pre ++ .other t :: rest) =
      .error (.valueError ("Expected str or InstrumentedAttribute, got " ++ t)) := by
  induction pre with
  | nil => rfl
  | cons v pre ih =>
    cases v with
    | attr k =>
      simp [normalize_list.normalizeListGo, Except.map,
        ih (fun x hx => h x (List.mem_cons_of_mem _ hx))]
    | str s =>
      simp [normalize_list.normalizeListGo, Except.map,
        ih (fun x hx => h x (List.mem_cons_of_mem _ hx))]
    | other u =>
      have := h (.other u) (List.mem_cons_self _ _)
      simp [ListArg.isOther] at this

/-- C9: `normalize_list` passes `None` through, maps attributes to their
keys and keeps strings, in order and length-preserving, raises a
`ValueError` naming the type of the first offending element, and never
returns `None` for a non-`None` argument. -/
theorem c9_normalize_list :
    (normalize_list none = .ok none) ∧
    (∀ l : List ListArg, (∀ v ∈ l, v.isOther = false) →
      normalize_list (some l) = .ok (some (l.map ListArg.normalized))) ∧
    (∀ (pre : List ListArg) (t : String) (rest : List ListArg),
      (∀ v ∈ pre, v.isOther = false) →
      normalize_list (some (pre ++ .other t :: rest)) =
        .error (.valueError ("Expected str or InstrumentedAttribute, got " ++ t))) ∧
    (∀ l : List ListArg, normalize_list (some l) ≠ .ok none) := by
  refine ⟨rfl, ?_, ?_, ?_⟩
  · intro l h
    simp [normalize_list, normalizeListGo_ok l h, Except.map]
  · intro pre t rest h
    simp [normalize_list, normalizeListGo_error pre t rest h, Except.map]
  · intro l h
    have h' : (normalize_list.normalizeListGo l).map some = .ok none := h
    cases hgo : normalize_list.normalizeListGo l with
    | error e =>
      rw [hgo] at h'
      exact Except.noConfusion
        (show (Except.error e : Except PyErr (Option (List String))) = .ok none from h')
    | ok x =>
      rw [hgo] at h'
      have hx : some x = none := Except.ok.inj
        (show (Except.ok (some x) : Except PyErr (Option (List String))) = .ok none from h')
      exact Option.noConfusion hx

/-- Witness for C9. -/
theorem c9_normalize_list_witness :
    normalize_list (some [ListArg.attr "id", ListArg.str "name"]) =
      .ok (some ["id", "name"]) ∧
    normalize_list (some [ListArg.str "a", ListArg.other "int", ListArg.attr "b"]) =
      .error (.valueError "Expected str or InstrumentedAttribute, got int") :=
  ⟨c9_normalize_list.2.1 [ListArg.attr "id", ListArg.str "name"] (by decide),
   c9_normalize_list.2.2.1 [ListArg.str "a"] "int" [ListArg.attr "b"] (by decide)⟩

/-- C10: `extract_column_python_type` returns the column type's
`python_type`, falling back to `str` when reading it raises
`NotImplementedError` (modelled as `none`). -/
theorem c10_extract_column_python_type (c : Column) :
    (∀ t, c.type.python_type = some t → extract_column_python_type c = t) ∧
    (c.type.python_type = none → extract_column_python_type c = "str") := by
  constructor
  · intro t ht; simp [extract_column_python_type, ht]
  · intro h; simp [extract_column_python_type, h]

/-- Witness for C10. -/
theorem c10_extract_column_python_type_witness :
    extract_column_python_type
      ⟨⟨false, none, [], false, "", false, some "int", "INTEGER"⟩, true, false, false, false⟩ =
      "int" ∧
    extract_column_python_type
      ⟨⟨false, none, [], false, "", false, none, "JSON"⟩, true, false, false, false⟩ = "str" :=
  ⟨(c10_extract_column_python_type _).1 "int" rfl,
   (c10_extract_column_python_type _).2 rfl⟩


end SqlaHelpers
